import Mathlib

/-!
Verification of the Spatial Coordinate Synthesis Engine of the argscape
repository (`backend/spatial_generation.py`, `backend/geographic_utils.py`).

The engine is embedded shallowly over `ℚ`:

* every `np.random.normal(0, σ)` call is modelled as `σ * z` for an explicit
  standard-normal draw `z : ℚ` supplied as a parameter (any rational value is
  a possible draw, since the normal distribution has full support);
* every `np.random.uniform(a, b)` call is modelled as `a + u * (b - a)` for an
  explicit draw `u : ℚ` with `0 ≤ u < 1`;
* `np.cos` / `np.sin` on the angle `k·π/4` of the grid-search strategy are
  modelled by abstract functions `cosv sinv : ℚ → ℚ` applied to the angle
  index `k` (the library trigonometry is external to the repository);
* the scikit-learn MDS optimiser is modelled as an abstract function
  `mdsFit : distances → seed → Option points`; `none` models the exception
  path that triggers the uniform-random fallback;
* the land-mask oracle `is_point_on_land_eastern_hemisphere` is passed to the
  placement search as an abstract `onLand : ℚ → ℚ → Bool`; the repository's
  own coordinate-rule fallback implementation (the shapefile-free degrade
  path of `geographic_utils.py`) is embedded concretely below.

The repository imports a `constants` module that is not part of the source
tree; each such constant is modelled from the spec and carries a doc comment
saying so.
-/

/-- Geographic longitude lower bound of the supported region (spec section 3:
longitude `[-15, 180]`; matches the fallback outline in `geographic_utils.py`). -/
def WGS84_LONGITUDE_MIN : ℚ := -15

/-- Geographic longitude upper bound of the supported region. -/
def WGS84_LONGITUDE_MAX : ℚ := 180

/-- Geographic latitude lower bound of the supported region (no Antarctica). -/
def WGS84_LATITUDE_MIN : ℚ := -60

/-- Geographic latitude upper bound of the supported region. -/
def WGS84_LATITUDE_MAX : ℚ := 75

/-- Longitude extent of the supported geographic region. -/
def WGS84_LONGITUDE_RANGE : ℚ := WGS84_LONGITUDE_MAX - WGS84_LONGITUDE_MIN

/-- Latitude extent of the supported geographic region. -/
def WGS84_LATITUDE_RANGE : ℚ := WGS84_LATITUDE_MAX - WGS84_LATITUDE_MIN

/-- Modelled from the spec: the fixed land-search attempt budget `K`
(spec section 4.5: "K a fixed attempt budget, e.g. 40"); the `constants`
module the code imports is not under `src/`. -/
def MAX_LAND_PLACEMENT_ATTEMPTS : ℕ := 40

/-- Modelled from the spec: the number of local candidate-generation
strategies (spec section 4.5 tier 1 lists exactly four); the `constants`
module is not under `src/`. -/
def LOCAL_SEARCH_STRATEGIES : ℕ := 4

/-- Modelled from the spec: initial radius of the growing local search
(spec section 4.5: "iteratively grow a search radius"); the concrete value is
in the missing `constants` module, a representative positive value is used. -/
def LAND_SEARCH_RADIUS_BASE : ℚ := 1

/-- Modelled from the spec: per-attempt increment of the local search radius;
the concrete value is in the missing `constants` module. -/
def LAND_SEARCH_RADIUS_INCREMENT : ℚ := 1/2

/-- Modelled from the spec: the "fixed large fallback distance" substituted
for undefined or failed MRCA computations (spec sections 3 and 4.1); the
concrete value is in the missing `constants` module. -/
def GENEALOGICAL_DISTANCE_FALLBACK : ℚ := 1000000

/-- Modelled from the spec: the minimum-sample threshold below which synthesis
is a documented no-op passthrough (spec sections 4.1 and 7: synthesis is
undefined for fewer than 2 samples; the 1-sample example is a no-op). -/
def MINIMUM_SAMPLES_REQUIRED : ℕ := 2

/-- Modelled from the spec: inward margin of the unit-grid projection
(spec section 4.4: "small inward margin, e.g. 5%"). -/
def UNIT_GRID_MARGIN : ℚ := 1/20

/-- Modelled from the spec: scale of the unit-grid Gaussian jitter ("small");
the concrete value is in the missing `constants` module. -/
def UNIT_GRID_NOISE_SCALE : ℚ := 1/100

/-- Modelled from the spec: the clipping inset `ε` of the unit-grid branch
(spec section 4.4: "clip back into `[ε, 1-ε]`"); the concrete value is in the
missing `constants` module. -/
def COORDINATE_BOUNDARY_EPSILON : ℚ := 1/100

/-- Modelled from the spec: side length of the square used by the random
fallback of the planar embedder ("a fixed-size square", spec section 4.2);
the concrete value is in the missing `constants` module. -/
def SPATIAL_GRID_SIZE : ℚ := 100

/-- Modelled from the spec: Gaussian jitter scale, in degrees, of the
geographic projection branch; the concrete value is in the missing
`constants` module. -/
def WGS84_GEOGRAPHIC_NOISE_SCALE : ℚ := 2

/-- Modelled from the spec: per-axis half-range of the projected planar
(Web Mercator) system; the concrete value is in the missing `constants`
module, the nominal Web Mercator extent is used. -/
def WEB_MERCATOR_X_RANGE : ℚ := 20037508

/-- Modelled from the spec: per-axis half-range of the projected planar
system (second axis). -/
def WEB_MERCATOR_Y_RANGE : ℚ := 20037508

/-- Modelled from the spec: jitter scale of the projected planar branch
("proportionally large"); the concrete value is in the missing `constants`
module. -/
def WEB_MERCATOR_NOISE_SCALE : ℚ := 100000

/-- Modelled from the spec: clipping bound of the projected planar branch,
"slightly tighter than the nominal system extent". -/
def WEB_MERCATOR_BOUNDS_X : ℚ := 20000000

/-- Modelled from the spec: clipping bound of the projected planar branch
(second axis). -/
def WEB_MERCATOR_BOUNDS_Y : ℚ := 20000000

/-- Embedding of `np.clip(x, lo, hi)`, which numpy documents as
`np.minimum(hi, np.maximum(x, lo))`. -/
def npClip (lo hi x : ℚ) : ℚ := min hi (max lo x)

/-- Embedding of the coordinate-rule land test of
`geographic_utils.is_point_on_land_eastern_hemisphere` (lines 529-599): the
degrade path used when the Natural Earth shapefile (data, not code, and not
under `src/`) is unavailable.  `archDraw` models the `random.random()` call
of the Indonesia/Malaysia archipelago branch (70% land probability). -/
def is_point_on_land_eastern_hemisphere (archDraw : ℚ) (lon lat : ℚ) : Bool :=
  if lat < -60 then false
  else if (-15 ≤ lon ∧ lon ≤ 65 ∧ -40 ≤ lat ∧ lat ≤ 40) ∧
      ¬ ((20 ≤ lon ∧ lon ≤ 45 ∧ -5 ≤ lat ∧ lat ≤ 15) ∨
         (30 ≤ lon ∧ lon ≤ 42 ∧ 25 ≤ lat ∧ lat ≤ 35)) then true
  else if -15 ≤ lon ∧ lon ≤ 70 ∧ 35 ≤ lat ∧ lat ≤ 75 then true
  else if (25 ≤ lon ∧ lon ≤ 180 ∧ 5 ≤ lat ∧ lat ≤ 75) ∧
      ¬ ((35 ≤ lon ∧ lon ≤ 55 ∧ 15 ≤ lat ∧ lat ≤ 30) ∨
         (75 ≤ lon ∧ lon ≤ 95 ∧ 5 ≤ lat ∧ lat ≤ 25) ∨
         (45 ≤ lon ∧ lon ≤ 75 ∧ 35 ≤ lat ∧ lat ≤ 50)) then true
  else if (65 ≤ lon ∧ lon ≤ 140 ∧ -10 ≤ lat ∧ lat ≤ 40) ∧
      ¬ (75 ≤ lon ∧ lon ≤ 95 ∧ 5 ≤ lat ∧ lat ≤ 25) then true
  else if 110 ≤ lon ∧ lon ≤ 180 ∧ -50 ≤ lat ∧ lat ≤ -10 then true
  else if 120 ≤ lon ∧ lon ≤ 150 ∧ 20 ≤ lat ∧ lat ≤ 50 then true
  else if 43 ≤ lon ∧ lon ≤ 51 ∧ -26 ≤ lat ∧ lat ≤ -12 then true
  else if (30 ≤ lon ∧ lon ≤ 65 ∧ 10 ≤ lat ∧ lat ≤ 35) ∧
      ¬ (48 ≤ lon ∧ lon ≤ 58 ∧ 20 ≤ lat ∧ lat ≤ 30) then true
  else if 78 ≤ lon ∧ lon ≤ 82 ∧ 5 ≤ lat ∧ lat ≤ 10 then true
  else if 90 ≤ lon ∧ lon ≤ 140 ∧ -15 ≤ lat ∧ lat ≤ 10 then decide (archDraw > 3/10)
  else false

/-- A geographic anchor region: centre longitude/latitude and a radius in
each axis (spec section 3, LandRegion; the name field is dropped, it is never
read by the engine). -/
structure LandRegion where
  lon : ℚ
  lat : ℚ
  radLon : ℚ
  radLat : ℚ
deriving DecidableEq, Inhabited

/-- Modelled from the spec: the fixed catalog of geographic anchor regions
(spec section 3: "a fixed catalog of named geographic anchor regions (center
longitude/latitude, radius in each axis) ... static configuration"); the
concrete values are in the missing `constants` module, representative
continental anchors inside the supported region are used. -/
def GEOGRAPHIC_LAND_REGIONS : List LandRegion :=
  [⟨10, 50, 15, 10⟩, ⟨20, 0, 20, 20⟩, ⟨90, 45, 30, 15⟩,
   ⟨75, 20, 10, 10⟩, ⟨115, 35, 15, 10⟩, ⟨135, -25, 10, 10⟩]

/-- Embedding of `find_closest_land_region` (spatial_generation.py lines
157-178).  The source compares `((dlon)**2 + (dlat)**2) ** 0.5`; the square
root is strictly monotone, so comparing squared distances selects the same
region.  Python keeps the earlier region on ties (strict `<`), as does this
fold. -/
def find_closest_land_region (lon lat : ℚ) : LandRegion :=
  GEOGRAPHIC_LAND_REGIONS.foldl
    (fun best r =>
      if (lon - r.lon) ^ 2 + (lat - r.lat) ^ 2 <
          (lon - best.lon) ^ 2 + (lat - best.lat) ^ 2 then r else best)
    (GEOGRAPHIC_LAND_REGIONS.headD default)

/-- Embedding of `generate_search_candidate` (spatial_generation.py lines
254-292).  `z1 z2` are the two standard normal draws of the call;
`cosv sinv` abstract `np.cos`/`np.sin` applied to the angle index
`attempt + strategy` (the true angle is that index times `π/4`). -/
def generate_search_candidate (cosv sinv : ℚ → ℚ) (z1 z2 : ℚ)
    (lon lat search_radius : ℚ) (strategy attempt : ℕ) : ℚ × ℚ :=
  if strategy = 0 then
    (lon + z1 * search_radius, lat + z2 * search_radius)
  else if strategy = 1 then
    let closest := find_closest_land_region lon lat
    let direction_x := (closest.lon - lon) * (3/10)
    let direction_y := (closest.lat - lat) * (3/10)
    (lon + (direction_x + z1 * (search_radius * (7/10))),
     lat + (direction_y + z2 * (search_radius * (7/10))))
  else if strategy = 2 then
    (lon + z1 * (search_radius * 2), lat + z2 * (search_radius * (1/2)))
  else
    (lon + search_radius * cosv ((attempt : ℚ) + (strategy : ℚ)),
     lat + search_radius * sinv ((attempt : ℚ) + (strategy : ℚ)))

/-- The ordered list of clipped candidates examined by
`attempt_local_land_search` (spatial_generation.py lines 234-249): for each
of `K/2` attempts with a growing radius, one candidate per strategy, clipped
into the interior of the geographic bounds.  `normals attempt strategy k`
is the k-th standard normal draw of that candidate generation. -/
def local_search_candidates (cosv sinv : ℚ → ℚ) (normals : ℕ → ℕ → ℕ → ℚ)
    (lon lat : ℚ) : List (ℚ × ℚ) :=
  (List.range (MAX_LAND_PLACEMENT_ATTEMPTS / 2)).flatMap (fun attempt =>
    (List.range LOCAL_SEARCH_STRATEGIES).map (fun strategy =>
      let search_radius :=
        LAND_SEARCH_RADIUS_BASE + (attempt : ℚ) * LAND_SEARCH_RADIUS_INCREMENT
      let c := generate_search_candidate cosv sinv
        (normals attempt strategy 0) (normals attempt strategy 1)
        lon lat search_radius strategy attempt
      (npClip (WGS84_LONGITUDE_MIN + 1) (WGS84_LONGITUDE_MAX - 1) c.1,
       npClip (WGS84_LATITUDE_MIN + 1) (WGS84_LATITUDE_MAX - 1) c.2)))

/-- Embedding of `attempt_local_land_search` (spatial_generation.py lines
218-251): return the first candidate, in loop order, that the land oracle
accepts; if none is accepted (or the geographic utilities fail to import,
`available = false`), report failure with the original coordinates. -/
def attempt_local_land_search (available : Bool) (onLand : ℚ → ℚ → Bool)
    (cosv sinv : ℚ → ℚ) (normals : ℕ → ℕ → ℕ → ℚ) (lon lat : ℚ) :
    Bool × ℚ × ℚ :=
  if available = false then (false, lon, lat)
  else
    match (local_search_candidates cosv sinv normals lon lat).find?
        (fun c => onLand c.1 c.2) with
    | some c => (true, c.1, c.2)
    | none => (false, lon, lat)

/-- Embedding of `attempt_regional_land_placement` (spatial_generation.py
lines 295-329): a deterministic quadrant selection on the original normalized
position followed by a uniform draw from a fixed box; `u v` are the two
uniform `[0,1)` draws. -/
def attempt_regional_land_placement (u v : ℚ)
    (original_normalized_x original_normalized_y : ℚ) : ℚ × ℚ :=
  if original_normalized_x < 1/4 then
    if original_normalized_y > 3/5 then (5 + u * 20, 45 + v * 20)
    else (0 + u * 20, -10 + v * 30)
  else if original_normalized_x < 1/2 then
    if original_normalized_y > 3/5 then (25 + u * 25, 45 + v * 20)
    else (15 + u * 20, -20 + v * 30)
  else if original_normalized_x < 3/4 then
    if original_normalized_y > 3/5 then (60 + u * 60, 35 + v * 20)
    else (50 + u * 40, 10 + v * 25)
  else
    if original_normalized_y > 2/5 then (100 + u * 40, 25 + v * 20)
    else (120 + u * 30, -35 + v * 20)

/-- Embedding of `attempt_land_placement` (spatial_generation.py lines
181-215): keep a point already on land, otherwise local search, otherwise
the regional (quadrant) fallback; if the geographic utilities cannot be
imported (`available = false`), pass the point through unchanged. -/
def attempt_land_placement (available : Bool) (onLand : ℚ → ℚ → Bool)
    (cosv sinv : ℚ → ℚ) (normals : ℕ → ℕ → ℕ → ℚ) (u v : ℚ)
    (longitude latitude original_normalized_x original_normalized_y : ℚ) :
    ℚ × ℚ :=
  if available = false then (longitude, latitude)
  else if onLand longitude latitude then (longitude, latitude)
  else
    let r := attempt_local_land_search available onLand cosv sinv normals
      longitude latitude
    if r.1 then (r.2.1, r.2.2)
    else attempt_regional_land_placement u v
      original_normalized_x original_normalized_y

/-- Modelled from the spec: the normalized centre of a land region (spec
section 4.5 tier 2 weighs regions by the distance from the point's original
normalized position to "that region's normalized center"); the anchor is
mapped into the unit square by the supported geographic bounds. -/
def region_normalized_center (r : LandRegion) : ℚ × ℚ :=
  ((r.lon - WGS84_LONGITUDE_MIN) / WGS84_LONGITUDE_RANGE,
   (r.lat - WGS84_LATITUDE_MIN) / WGS84_LATITUDE_RANGE)

/-- Modelled from the spec: the tier-2 region weight, "inversely proportional
to the distance between the point's original normalized position and that
region's normalized center".  The squared distance is used in place of the
distance; both are positive exactly when the two points differ, so a region
is drawable with positive probability under this weight exactly when it is
under the spec's. -/
def region_weight_spec (x y : ℚ) (r : LandRegion) : ℚ :=
  1 / ((x - (region_normalized_center r).1) ^ 2 +
       (y - (region_normalized_center r).2) ^ 2)

/-- Modelled from the spec: a tier-2 candidate, "a Gaussian centered on that
region's anchor with region-specific spread": region index `k` into the
catalog, `z1 z2` the standard normal draws. -/
def regional_resample_spec (k : ℕ) (z1 z2 : ℚ) : ℚ × ℚ :=
  let r := GEOGRAPHIC_LAND_REGIONS.getD k default
  (r.lon + z1 * r.radLon, r.lat + z2 * r.radLat)

/-- Outcome of one `tree.mrca`/`tree.time` computation for a sample pair:
an MRCA node, tskit's NULL (no common ancestor in this tree), or a raised
exception. -/
inductive MrcaRes where
  | ok (m : ℕ)
  | null
  | err
deriving DecidableEq

/-- One tree of the tree sequence, as consumed by the distance builder:
its genomic span, its node-time function and its MRCA computation. -/
structure GTree where
  span : ℚ
  time : ℕ → ℚ
  mrca : ℕ → ℕ → MrcaRes

/-- One iteration of the per-tree loop of `calculate_genealogical_distances`
(spatial_generation.py lines 64-78): the accumulator carries
`(total_distance, total_span)`; zero-span trees and NULL MRCAs are skipped,
a failed MRCA computation contributes the fallback distance over the tree's
span. -/
def pairDistanceStep (node_i node_j : ℕ) (acc : ℚ × ℚ) (t : GTree) : ℚ × ℚ :=
  if t.span = 0 then acc
  else
    match t.mrca node_i node_j with
    | MrcaRes.ok m =>
      (acc.1 + ((t.time m - t.time node_i) + (t.time m - t.time node_j)) * t.span,
       acc.2 + t.span)
    | MrcaRes.null => acc
    | MrcaRes.err =>
      (acc.1 + GENEALOGICAL_DISTANCE_FALLBACK * t.span, acc.2 + t.span)

/-- The per-pair loop of `calculate_genealogical_distances`
(spatial_generation.py lines 61-83): accumulate span-weighted distances over
the trees, then divide by the total span, or fall back entirely when the
total span is zero (lines 80-83). -/
def pair_distance (trees : List GTree) (node_i node_j : ℕ) : ℚ :=
  let acc := trees.foldl (pairDistanceStep node_i node_j) (0, 0)
  if acc.2 > 0 then acc.1 / acc.2 else GENEALOGICAL_DISTANCE_FALLBACK

/-- Embedding of `calculate_genealogical_distances` (spatial_generation.py
lines 42-86): fill an N x N matrix with the per-pair distances (diagonal
zero) and symmetrize by averaging with the transpose. -/
def calculate_genealogical_distances (sample_nodes : List ℕ)
    (trees : List GTree) : List (List ℚ) :=
  let n := sample_nodes.length
  let raw : ℕ → ℕ → ℚ := fun i j =>
    if i = j then 0
    else pair_distance trees (sample_nodes.getD i 0) (sample_nodes.getD j 0)
  (List.range n).map (fun i =>
    (List.range n).map (fun j => (raw i j + raw j i) / 2))

/-- Minimum of a list, matching `np.min` on a nonempty axis (0 on the empty
list, which numpy instead rejects; all uses are guarded by nonemptiness). -/
def axisMin : List ℚ → ℚ
  | [] => 0
  | x :: xs => xs.foldl min x

/-- Maximum of a list, matching `np.max` on a nonempty axis. -/
def axisMax : List ℚ → ℚ
  | [] => 0
  | x :: xs => xs.foldl max x

/-- One axis of `normalize_coordinates` (spatial_generation.py lines
116-133): subtract the minimum and divide by the range, with a zero range
replaced by `1.0`. -/
def normalizeAxis (xs : List ℚ) : List ℚ :=
  let m := axisMin xs
  let range := axisMax xs - m
  let divisor := if range = 0 then 1 else range
  xs.map (fun t => (t - m) / divisor)

/-- Embedding of `normalize_coordinates`: both axes normalized independently
and re-paired. -/
def normalize_coordinates (coords : List (ℚ × ℚ)) : List (ℚ × ℚ) :=
  (normalizeAxis (coords.map Prod.fst)).zip (normalizeAxis (coords.map Prod.snd))

/-- One point of the unit-grid projection (spatial_generation.py lines
136-154): scale into `[margin, 1-margin]`, add the jitter realization `nz`,
clip into `[eps, 1-eps]`. -/
def unitGridPoint (margin eps : ℚ) (p nz : ℚ × ℚ) : ℚ × ℚ :=
  let grid_size := 1 - 2 * margin
  (npClip eps (1 - eps) (p.1 * grid_size + margin + nz.1),
   npClip eps (1 - eps) (p.2 * grid_size + margin + nz.2))

/-- Embedding of `generate_unit_grid_coordinates`: elementwise
`unitGridPoint` over the coordinate array and the jitter array (numpy adds
arrays of identical shape elementwise). -/
def generate_unit_grid_coordinates (margin eps : ℚ) :
    List (ℚ × ℚ) → List (ℚ × ℚ) → List (ℚ × ℚ)
  | [], _ => []
  | _ :: _, [] => []
  | p :: ps, nz :: rest =>
    unitGridPoint margin eps p nz :: generate_unit_grid_coordinates margin eps ps rest

/-- One point of the projected planar branch (spatial_generation.py lines
369-392): map `[0,1]` to `[-1,1]`, scale by the per-axis ranges, add jitter,
clip to the slightly tighter bounds. -/
def webMercatorPoint (p nz : ℚ × ℚ) : ℚ × ℚ :=
  (npClip (-WEB_MERCATOR_BOUNDS_X) WEB_MERCATOR_BOUNDS_X
     ((p.1 - 1/2) * 2 * WEB_MERCATOR_X_RANGE + nz.1),
   npClip (-WEB_MERCATOR_BOUNDS_Y) WEB_MERCATOR_BOUNDS_Y
     ((p.2 - 1/2) * 2 * WEB_MERCATOR_Y_RANGE + nz.2))

/-- Embedding of `generate_web_mercator_coordinates`. -/
def generate_web_mercator_coordinates :
    List (ℚ × ℚ) → List (ℚ × ℚ) → List (ℚ × ℚ)
  | [], _ => []
  | _ :: _, [] => []
  | p :: ps, nz :: rest => webMercatorPoint p nz :: generate_web_mercator_coordinates ps rest

/-- The pre-placement step of the geographic branch (spatial_generation.py
lines 342-355): scale the normalized point to the geographic ranges, add the
jitter realization, clip one degree inside the bounds. -/
def wgs84ScaledPoint (p nz : ℚ × ℚ) : ℚ × ℚ :=
  (npClip (WGS84_LONGITUDE_MIN + 1) (WGS84_LONGITUDE_MAX - 1)
     (p.1 * WGS84_LONGITUDE_RANGE + WGS84_LONGITUDE_MIN + nz.1),
   npClip (WGS84_LATITUDE_MIN + 1) (WGS84_LATITUDE_MAX - 1)
     (p.2 * WGS84_LATITUDE_RANGE + WGS84_LATITUDE_MIN + nz.2))

/-- Index-threaded worker for the geographic branch: each point receives its
own families of draws (`normalsFam i`, `us i`, `vs i`). -/
def wgs84Aux (available : Bool) (onLand : ℚ → ℚ → Bool) (cosv sinv : ℚ → ℚ)
    (normalsFam : ℕ → ℕ → ℕ → ℕ → ℚ) (us vs : ℕ → ℚ) :
    ℕ → List (ℚ × ℚ) → List (ℚ × ℚ) → List (ℚ × ℚ)
  | _, [], _ => []
  | _, _ :: _, [] => []
  | i, p :: ps, nz :: rest =>
    let s := wgs84ScaledPoint p nz
    attempt_land_placement available onLand cosv sinv (normalsFam i)
        (us i) (vs i) s.1 s.2 p.1 p.2 ::
      wgs84Aux available onLand cosv sinv normalsFam us vs (i + 1) ps rest

/-- Embedding of `generate_wgs84_coordinates` (spatial_generation.py lines
332-366): scale, jitter and clip every point, then run the land-constrained
placement search on each. -/
def generate_wgs84_coordinates (available : Bool) (onLand : ℚ → ℚ → Bool)
    (cosv sinv : ℚ → ℚ) (normalsFam : ℕ → ℕ → ℕ → ℕ → ℚ) (us vs : ℕ → ℚ)
    (normalized noise : List (ℚ × ℚ)) : List (ℚ × ℚ) :=
  wgs84Aux available onLand cosv sinv normalsFam us vs 0 normalized noise

/-- Embedding of `embed_distances_in_2d` (spatial_generation.py lines
89-113): run the external MDS optimiser; on failure (`none`) fall back to
points drawn uniformly from the fixed-size square using the global stream. -/
def embed_distances_in_2d
    (mdsFit : List (List ℚ) → Option ℕ → Option (List (ℚ × ℚ)))
    (stream : ℕ → ℚ) (distances : List (List ℚ)) (random_seed : Option ℕ) :
    List (ℚ × ℚ) :=
  match mdsFit distances random_seed with
  | some pts => pts
  | none =>
    (List.range distances.length).map (fun i =>
      (stream (2 * i) * SPATIAL_GRID_SIZE, stream (2 * i + 1) * SPATIAL_GRID_SIZE))

/-- One row of the tskit node table, with the fields the engine touches. -/
structure NodeRow where
  time : ℚ
  flags : ℕ
  population : Int
  individual : Int
  metadata : List ℕ
deriving DecidableEq, Inhabited

/-- One row of the tskit individuals table. -/
structure IndividualRow where
  flags : ℕ
  location : List ℚ
  parents : List Int
  metadata : List ℕ
deriving DecidableEq, Inhabited

/-- One row of the tskit edge table (never touched by the engine). -/
structure EdgeRow where
  left : ℚ
  right : ℚ
  parent : ℕ
  child : ℕ
deriving DecidableEq, Inhabited

/-- A tree sequence, as consumed by the engine: its tables plus the tree
list used by the distance builder.  Node ids are positions in `nodes`. -/
structure TreeSequence where
  nodes : List NodeRow
  edges : List EdgeRow
  individuals : List IndividualRow
  trees : List GTree

/-- tskit's `node.is_sample()`: the low bit of the flags word. -/
def NodeRow.isSample (n : NodeRow) : Bool := n.flags % 2 = 1

/-- The ordered sample-node id list, `[node.id for node in ts.nodes() if
node.is_sample()]` (spatial_generation.py line 420). -/
def sampleNodes (ts : TreeSequence) : List ℕ :=
  (List.range ts.nodes.length).filter (fun i => (ts.nodes.getD i default).isSample)

/-- The `node_to_individual` dictionary of
`create_tree_sequence_with_spatial_data` with default `-1`: the dict is
built in enumeration order, so a duplicated sample id keeps its last index,
which this left fold reproduces. -/
def nodeToIndividual (sample_nodes : List ℕ) (nid : ℕ) : Int :=
  (List.range sample_nodes.length).foldl
    (fun acc j => if sample_nodes.getD j 0 = nid then (j : Int) else acc) (-1)

/-- Embedding of `create_tree_sequence_with_spatial_data`
(spatial_generation.py lines 455-510): clear the individuals table, add one
individual per sample node whose location is `(x, y, 0)`, rebuild the node
table with each node's fields copied and its individual reference looked up
(default `-1`); edges are untouched. -/
def create_tree_sequence_with_spatial_data (ts : TreeSequence)
    (sample_nodes : List ℕ) (final_coords : List (ℚ × ℚ)) : TreeSequence :=
  let individuals := (sample_nodes.zip final_coords).map (fun pc =>
    ({ flags := 0, location := [pc.2.1, pc.2.2, 0], parents := [],
       metadata := [] } : IndividualRow))
  let newNodes := (List.range ts.nodes.length).map (fun i =>
    let n := ts.nodes.getD i default
    { n with individual := nodeToIndividual sample_nodes i })
  { ts with nodes := newNodes, individuals := individuals }

/-- Embedding of the synthesis entry point
`generate_spatial_locations_for_samples` (spatial_generation.py lines
395-452).  `seeded s` is the global numpy stream after `np.random.seed(s)`
(a fixed deterministic stream per seed, supplied as a parameter because the
PRNG algorithm is external); `ambient` is the unseeded global stream used
when no seed is given.  Stream positions are partitioned between the stages
so that every random call site reads a fresh draw. -/
def generate_spatial_locations_for_samples
    (mdsFit : List (List ℚ) → Option ℕ → Option (List (ℚ × ℚ)))
    (seeded : ℕ → ℕ → ℚ) (ambient : ℕ → ℚ)
    (available : Bool) (onLand : ℚ → ℚ → Bool) (cosv sinv : ℚ → ℚ)
    (ts : TreeSequence) (random_seed : Option ℕ) (crs : String) : TreeSequence :=
  let stream : ℕ → ℚ :=
    match random_seed with
    | some s => seeded s
    | none => ambient
  let sample_nodes := sampleNodes ts
  if sample_nodes.length < MINIMUM_SAMPLES_REQUIRED then ts
  else
    let distances := calculate_genealogical_distances sample_nodes ts.trees
    let spatial := embed_distances_in_2d mdsFit stream distances random_seed
    let normalized := normalize_coordinates spatial
    let n := normalized.length
    let final :=
      if crs = "unit_grid" then
        generate_unit_grid_coordinates UNIT_GRID_MARGIN COORDINATE_BOUNDARY_EPSILON
          normalized
          ((List.range n).map (fun i =>
            (stream (1000 + 2 * i) * UNIT_GRID_NOISE_SCALE,
             stream (1000 + 2 * i + 1) * UNIT_GRID_NOISE_SCALE)))
      else if crs = "EPSG:4326" then
        generate_wgs84_coordinates available onLand cosv sinv
          (fun i attempt strategy k =>
            stream (10000 + ((i * 64 + attempt) * 8 + strategy) * 2 + k))
          (fun i => stream (5000 + 2 * i)) (fun i => stream (5000 + 2 * i + 1))
          normalized
          ((List.range n).map (fun i =>
            (stream (3000 + 2 * i) * WGS84_GEOGRAPHIC_NOISE_SCALE,
             stream (3000 + 2 * i + 1) * WGS84_GEOGRAPHIC_NOISE_SCALE)))
      else if crs = "EPSG:3857" then
        generate_web_mercator_coordinates normalized
          ((List.range n).map (fun i =>
            (stream (1000 + 2 * i) * WEB_MERCATOR_NOISE_SCALE,
             stream (1000 + 2 * i + 1) * WEB_MERCATOR_NOISE_SCALE)))
      else
        generate_unit_grid_coordinates UNIT_GRID_MARGIN COORDINATE_BOUNDARY_EPSILON
          normalized
          ((List.range n).map (fun i =>
            (stream (1000 + 2 * i) * UNIT_GRID_NOISE_SCALE,
             stream (1000 + 2 * i + 1) * UNIT_GRID_NOISE_SCALE)))
    create_tree_sequence_with_spatial_data ts sample_nodes final

/-! ### Helper lemmas -/

lemma npClip_mem (lo hi x : ℚ) (h : lo ≤ hi) :
    lo ≤ npClip lo hi x ∧ npClip lo hi x ≤ hi := by
  unfold npClip
  exact ⟨le_min h (le_max_left lo x), min_le_left hi _⟩

lemma foldl_min_le_init (xs : List ℚ) (a : ℚ) : xs.foldl min a ≤ a := by
  induction xs generalizing a with
  | nil => simp
  | cons x xs ih => exact le_trans (ih (min a x)) (min_le_left a x)

lemma foldl_min_le_mem (xs : List ℚ) (a b : ℚ) (hb : b ∈ xs) :
    xs.foldl min a ≤ b := by
  induction xs generalizing a with
  | nil => cases hb
  | cons x xs ih =>
    rcases List.mem_cons.mp hb with h | h
    · subst h
      exact le_trans (foldl_min_le_init xs (min a b)) (min_le_right a b)
    · exact ih (min a x) h

lemma foldl_min_mem (xs : List ℚ) (a : ℚ) :
    xs.foldl min a = a ∨ xs.foldl min a ∈ xs := by
  induction xs generalizing a with
  | nil => left; rfl
  | cons x xs ih =>
    simp only [List.foldl_cons]
    rcases ih (min a x) with h | h
    · rcases le_total a x with hax | hax
      · left; rw [h, min_eq_left hax]
      · right; rw [h, min_eq_right hax]; exact List.mem_cons_self x xs
    · right; exact List.mem_cons_of_mem x h

lemma foldl_max_ge_init (xs : List ℚ) (a : ℚ) : a ≤ xs.foldl max a := by
  induction xs generalizing a with
  | nil => simp
  | cons x xs ih => exact le_trans (le_max_left a x) (ih (max a x))

lemma foldl_max_ge_mem (xs : List ℚ) (a b : ℚ) (hb : b ∈ xs) :
    b ≤ xs.foldl max a := by
  induction xs generalizing a with
  | nil => cases hb
  | cons x xs ih =>
    rcases List.mem_cons.mp hb with h | h
    · subst h
      exact le_trans (le_max_right a b) (foldl_max_ge_init xs (max a b))
    · exact ih (max a x) h

lemma foldl_max_mem (xs : List ℚ) (a : ℚ) :
    xs.foldl max a = a ∨ xs.foldl max a ∈ xs := by
  induction xs generalizing a with
  | nil => left; rfl
  | cons x xs ih =>
    simp only [List.foldl_cons]
    rcases ih (max a x) with h | h
    · rcases le_total a x with hax | hax
      · right; rw [h, max_eq_right hax]; exact List.mem_cons_self x xs
      · left; rw [h, max_eq_left hax]
    · right; exact List.mem_cons_of_mem x h

lemma axisMin_le_mem (x : ℚ) (xs : List ℚ) (b : ℚ) (hb : b ∈ x :: xs) :
    axisMin (x :: xs) ≤ b := by
  show xs.foldl min x ≤ b
  rcases List.mem_cons.mp hb with h | h
  · subst h; exact foldl_min_le_init xs b
  · exact foldl_min_le_mem xs x b h

lemma axisMax_ge_mem (x : ℚ) (xs : List ℚ) (b : ℚ) (hb : b ∈ x :: xs) :
    b ≤ axisMax (x :: xs) := by
  show b ≤ xs.foldl max x
  rcases List.mem_cons.mp hb with h | h
  · subst h; exact foldl_max_ge_init xs b
  · exact foldl_max_ge_mem xs x b h

lemma axisMin_le_axisMax (x : ℚ) (xs : List ℚ) :
    axisMin (x :: xs) ≤ axisMax (x :: xs) :=
  le_trans (axisMin_le_mem x xs x (List.mem_cons_self x xs))
    (axisMax_ge_mem x xs x (List.mem_cons_self x xs))

lemma foldl_min_map_div (m divisor : ℚ) (hd : 0 < divisor) (xs : List ℚ) (a : ℚ) :
    (xs.map (fun t => (t - m) / divisor)).foldl min ((a - m) / divisor) =
      (xs.foldl min a - m) / divisor := by
  have hmono : Monotone (fun t : ℚ => (t - m) / divisor) :=
    fun p q h => div_le_div_of_nonneg_right (by linarith) (le_of_lt hd)
  induction xs generalizing a with
  | nil => rfl
  | cons x xs ih =>
    have key : min ((a - m) / divisor) ((x - m) / divisor) = (min a x - m) / divisor :=
      (hmono.map_min).symm
    simp only [List.map_cons, List.foldl_cons, key]
    exact ih (min a x)

lemma foldl_max_map_div (m divisor : ℚ) (hd : 0 < divisor) (xs : List ℚ) (a : ℚ) :
    (xs.map (fun t => (t - m) / divisor)).foldl max ((a - m) / divisor) =
      (xs.foldl max a - m) / divisor := by
  have hmono : Monotone (fun t : ℚ => (t - m) / divisor) :=
    fun p q h => div_le_div_of_nonneg_right (by linarith) (le_of_lt hd)
  induction xs generalizing a with
  | nil => rfl
  | cons x xs ih =>
    have key : max ((a - m) / divisor) ((x - m) / divisor) = (max a x - m) / divisor :=
      (hmono.map_max).symm
    simp only [List.map_cons, List.foldl_cons, key]
    exact ih (max a x)

lemma axisMin_cons (a : ℚ) (l : List ℚ) : axisMin (a :: l) = l.foldl min a := rfl

lemma axisMax_cons (a : ℚ) (l : List ℚ) : axisMax (a :: l) = l.foldl max a := rfl

lemma normalizeAxis_nondeg (xs : List ℚ) (hxs : xs ≠ [])
    (hne : axisMin xs ≠ axisMax xs) :
    axisMin (normalizeAxis xs) = 0 ∧ axisMax (normalizeAxis xs) = 1 := by
  match xs, hxs with
  | x :: xs, _ =>
    have hlt : axisMin (x :: xs) < axisMax (x :: xs) :=
      lt_of_le_of_ne (axisMin_le_axisMax x xs) hne
    have hrange : 0 < axisMax (x :: xs) - axisMin (x :: xs) := by linarith
    have hdiv : (if axisMax (x :: xs) - axisMin (x :: xs) = 0 then (1 : ℚ)
        else axisMax (x :: xs) - axisMin (x :: xs)) =
        axisMax (x :: xs) - axisMin (x :: xs) := if_neg (ne_of_gt hrange)
    have hmin := foldl_min_map_div (axisMin (x :: xs))
      (axisMax (x :: xs) - axisMin (x :: xs)) hrange xs x
    have hmax := foldl_max_map_div (axisMin (x :: xs))
      (axisMax (x :: xs) - axisMin (x :: xs)) hrange xs x
    constructor
    · simp only [normalizeAxis, hdiv, List.map_cons]
      show (List.map (fun t => (t - axisMin (x :: xs)) /
          (axisMax (x :: xs) - axisMin (x :: xs))) xs).foldl min
          ((x - axisMin (x :: xs)) / (axisMax (x :: xs) - axisMin (x :: xs))) = 0
      rw [hmin]
      have hfold : List.foldl min x xs = axisMin (x :: xs) := rfl
      rw [hfold, sub_self, zero_div]
    · simp only [normalizeAxis, hdiv, List.map_cons]
      show (List.map (fun t => (t - axisMin (x :: xs)) /
          (axisMax (x :: xs) - axisMin (x :: xs))) xs).foldl max
          ((x - axisMin (x :: xs)) / (axisMax (x :: xs) - axisMin (x :: xs))) = 1
      rw [hmax]
      have hfold : List.foldl max x xs = axisMax (x :: xs) := rfl
      rw [hfold, div_self (ne_of_gt hrange)]

lemma normalizeAxis_degenerate (xs : List ℚ) (hxs : xs ≠ [])
    (heq : axisMin xs = axisMax xs) :
    ∀ t ∈ normalizeAxis xs, t = 0 := by
  match xs, hxs with
  | x :: xs, _ =>
    intro t ht
    simp only [normalizeAxis, List.mem_map] at ht
    obtain ⟨s, hs, rfl⟩ := ht
    have h1 : axisMin (x :: xs) ≤ s := axisMin_le_mem x xs s hs
    have h2 : s ≤ axisMax (x :: xs) := axisMax_ge_mem x xs s hs
    have hsm : s = axisMin (x :: xs) := le_antisymm (heq ▸ h2) h1
    rw [← hsm] at *
    rw [sub_self, zero_div]

lemma getD_map_range {α : Type} (f : ℕ → α) (n i : ℕ) (h : i < n) (d : α) :
    ((List.range n).map f).getD i d = f i := by
  rw [List.getD_eq_getElem?_getD, List.getElem?_map, List.getElem?_range h]
  rfl

lemma pair_distance_fold_invariant (trees : List GTree) (i j : ℕ)
    (h : ∀ t ∈ trees, t.span = 0 ∨ t.mrca i j = MrcaRes.null ∨ t.mrca i j = MrcaRes.err)
    (d s : ℚ) (hds : d = GENEALOGICAL_DISTANCE_FALLBACK * s) :
    (trees.foldl (pairDistanceStep i j) (d, s)).1 =
      GENEALOGICAL_DISTANCE_FALLBACK * (trees.foldl (pairDistanceStep i j) (d, s)).2 := by
  induction trees generalizing d s with
  | nil => simpa using hds
  | cons t ts ih =>
    simp only [List.foldl_cons]
    have ht := h t (List.mem_cons_self t ts)
    have hrest : ∀ u ∈ ts, u.span = 0 ∨ u.mrca i j = MrcaRes.null ∨ u.mrca i j = MrcaRes.err :=
      fun u hu => h u (List.mem_cons_of_mem t hu)
    by_cases hspan : t.span = 0
    · rw [show pairDistanceStep i j (d, s) t = (d, s) from by
        simp [pairDistanceStep, hspan]]
      exact ih hrest d s hds
    · rcases ht with hsp | hnull | herr
      · exact absurd hsp hspan
      · rw [show pairDistanceStep i j (d, s) t = (d, s) from by
          simp [pairDistanceStep, hspan, hnull]]
        exact ih hrest d s hds
      · rw [show pairDistanceStep i j (d, s) t =
            (d + GENEALOGICAL_DISTANCE_FALLBACK * t.span, s + t.span) from by
          simp [pairDistanceStep, hspan, herr]]
        exact ih hrest _ _ (by rw [hds]; ring)

/-! ### Claim theorems -/

/-- C8: for every sample pair for which every tree either has zero genomic
span, reports no common ancestor (tskit NULL), or fails the MRCA computation
(exception path) — i.e. the pair accumulates no resolvable weighted ancestry
— the distance builder assigns exactly the fixed large fallback distance to
the pair instead of raising. -/
theorem pair_distance_fallback_c8 (trees : List GTree) (i j : ℕ)
    (h : ∀ t ∈ trees, t.span = 0 ∨ t.mrca i j = MrcaRes.null ∨ t.mrca i j = MrcaRes.err) :
    pair_distance trees i j = GENEALOGICAL_DISTANCE_FALLBACK := by
  have inv := pair_distance_fold_invariant trees i j h 0 0 (by ring)
  simp only [pair_distance]
  by_cases hpos : (trees.foldl (pairDistanceStep i j) (0, 0)).2 > 0
  · rw [if_pos hpos, inv, mul_div_cancel_right₀ _ (ne_of_gt hpos)]
  · rw [if_neg hpos]

/-- A tree whose MRCA computation raises for every pair, used to exhibit the
fallback behaviour on a concrete input. -/
def c8Tree : GTree := ⟨1, fun _ => 0, fun _ _ => MrcaRes.err⟩

theorem pair_distance_fallback_c8_witness :
    (∀ t ∈ [c8Tree], t.span = 0 ∨ t.mrca 0 1 = MrcaRes.null ∨ t.mrca 0 1 = MrcaRes.err) ∧
    pair_distance [c8Tree] 0 1 = GENEALOGICAL_DISTANCE_FALLBACK :=
  ⟨by decide, pair_distance_fallback_c8 [c8Tree] 0 1 (by decide)⟩

/-- C3: for every sample list of size at least 2 and every per-tree MRCA
oracle (including oracles whose raw values are asymmetric in the pair order,
and oracles that fail for some pairs), the matrix built by
`calculate_genealogical_distances` is N x N, symmetric, and has a zero
diagonal.  Every entry is a rational number by construction (a span-weighted
average or the finite fallback constant), so no entry is NaN or infinite. -/
theorem calculate_genealogical_distances_c3 (sample_nodes : List ℕ)
    (trees : List GTree) (h2 : 2 ≤ sample_nodes.length) :
    (calculate_genealogical_distances sample_nodes trees).length = sample_nodes.length ∧
    (∀ row ∈ calculate_genealogical_distances sample_nodes trees,
      row.length = sample_nodes.length) ∧
    (∀ i j, i < sample_nodes.length → j < sample_nodes.length →
      ((calculate_genealogical_distances sample_nodes trees).getD i []).getD j 0 =
      ((calculate_genealogical_distances sample_nodes trees).getD j []).getD i 0) ∧
    (∀ i, i < sample_nodes.length →
      ((calculate_genealogical_distances sample_nodes trees).getD i []).getD i 0 = 0) := by
  simp only [calculate_genealogical_distances]
  refine ⟨by simp, ?_, ?_, ?_⟩
  · intro row hrow
    obtain ⟨i, _, rfl⟩ := List.mem_map.mp hrow
    simp
  · intro i j hi hj
    rw [getD_map_range _ _ i hi, getD_map_range _ _ j hj,
      getD_map_range _ _ j hj, getD_map_range _ _ i hi]
    ring
  · intro i hi
    rw [getD_map_range _ _ i hi, getD_map_range _ _ i hi]
    simp

theorem calculate_genealogical_distances_c3_witness :
    2 ≤ ([0, 1] : List ℕ).length ∧
    (∀ i, i < ([0, 1] : List ℕ).length →
      ((calculate_genealogical_distances [0, 1] []).getD i []).getD i 0 = 0) :=
  ⟨by decide, (calculate_genealogical_distances_c3 [0, 1] [] (by decide)).2.2.2⟩

/-- C4: for every non-empty embedding, `normalize_coordinates` is total (one
output pair per input pair, never an error); each output axis is exactly the
normalization of the corresponding input axis; on an axis whose raw values
are not all equal the normalized values attain minimum exactly 0 and maximum
exactly 1; on an axis with zero range every normalized value is the constant
0 (never NaN or infinity, since the zero divisor is replaced by 1). -/
theorem normalize_coordinates_c4 (coords : List (ℚ × ℚ)) (hne : coords ≠ []) :
    (normalize_coordinates coords).length = coords.length ∧
    (normalize_coordinates coords).map Prod.fst = normalizeAxis (coords.map Prod.fst) ∧
    (normalize_coordinates coords).map Prod.snd = normalizeAxis (coords.map Prod.snd) ∧
    (axisMin (coords.map Prod.fst) ≠ axisMax (coords.map Prod.fst) →
      axisMin (normalizeAxis (coords.map Prod.fst)) = 0 ∧
      axisMax (normalizeAxis (coords.map Prod.fst)) = 1) ∧
    (axisMin (coords.map Prod.snd) ≠ axisMax (coords.map Prod.snd) →
      axisMin (normalizeAxis (coords.map Prod.snd)) = 0 ∧
      axisMax (normalizeAxis (coords.map Prod.snd)) = 1) ∧
    (axisMin (coords.map Prod.fst) = axisMax (coords.map Prod.fst) →
      ∀ t ∈ normalizeAxis (coords.map Prod.fst), t = 0) ∧
    (axisMin (coords.map Prod.snd) = axisMax (coords.map Prod.snd) →
      ∀ t ∈ normalizeAxis (coords.map Prod.snd), t = 0) := by
  have hlenAxis : ∀ xs : List ℚ, (normalizeAxis xs).length = xs.length := by
    intro xs; simp [normalizeAxis]
  have hfst : coords.map Prod.fst ≠ [] := by
    intro hcon; exact hne (List.map_eq_nil.mp hcon)
  have hsnd : coords.map Prod.snd ≠ [] := by
    intro hcon; exact hne (List.map_eq_nil.mp hcon)
  refine ⟨?_, ?_, ?_, fun h => normalizeAxis_nondeg _ hfst h,
    fun h => normalizeAxis_nondeg _ hsnd h,
    fun h => normalizeAxis_degenerate _ hfst h,
    fun h => normalizeAxis_degenerate _ hsnd h⟩
  · simp [normalize_coordinates, hlenAxis]
  · exact List.map_fst_zip _ _ (by simp [hlenAxis])
  · exact List.map_snd_zip _ _ (by simp [hlenAxis])

theorem normalize_coordinates_c4_witness :
    ([((0 : ℚ), (3 : ℚ)), (2, 3)] : List (ℚ × ℚ)) ≠ [] ∧
    (normalize_coordinates [((0 : ℚ), (3 : ℚ)), (2, 3)]).length = 2 :=
  ⟨by decide, (normalize_coordinates_c4 [((0 : ℚ), (3 : ℚ)), (2, 3)]
    (by decide)).1⟩

lemma unitGridPoint_bounds (margin eps : ℚ) (h0 : 0 ≤ eps) (h1 : eps ≤ 1)
    (p nz : ℚ × ℚ) :
    0 ≤ (unitGridPoint margin eps p nz).1 ∧ (unitGridPoint margin eps p nz).1 ≤ 1 ∧
    0 ≤ (unitGridPoint margin eps p nz).2 ∧ (unitGridPoint margin eps p nz).2 ≤ 1 := by
  have key : ∀ x : ℚ, 0 ≤ npClip eps (1 - eps) x ∧ npClip eps (1 - eps) x ≤ 1 := by
    intro x
    unfold npClip
    exact ⟨le_min (by linarith) (le_trans h0 (le_max_left eps x)),
      le_trans (min_le_left _ _) (by linarith)⟩
  exact ⟨(key _).1, (key _).2, (key _).1, (key _).2⟩

/-- C5: for every input coordinate matrix (whatever distance matrix or
embedding produced it) and every realization of the Gaussian jitter, every
coordinate produced by the unit-grid projection branch lies in
`[0,1] x [0,1]`: the final clip into `[eps, 1-eps]` makes the bound hold for
any margin, any jitter, and any inset `0 ≤ eps ≤ 1`. -/
theorem generate_unit_grid_coordinates_c5 (margin eps : ℚ)
    (h0 : 0 ≤ eps) (h1 : eps ≤ 1) (normalized noise : List (ℚ × ℚ)) :
    ∀ p ∈ generate_unit_grid_coordinates margin eps normalized noise,
      0 ≤ p.1 ∧ p.1 ≤ 1 ∧ 0 ≤ p.2 ∧ p.2 ≤ 1 := by
  induction normalized generalizing noise with
  | nil =>
    intro p hp
    simp only [generate_unit_grid_coordinates] at hp
    cases hp
  | cons q qs ih =>
    intro p hp
    cases noise with
    | nil =>
      simp only [generate_unit_grid_coordinates] at hp
      cases hp
    | cons nz rest =>
      simp only [generate_unit_grid_coordinates] at hp
      rcases List.mem_cons.mp hp with h | h
      · subst h; exact unitGridPoint_bounds margin eps h0 h1 q nz
      · exact ih rest p h

theorem generate_unit_grid_coordinates_c5_witness :
    (0 : ℚ) ≤ 0 ∧ (0 : ℚ) ≤ 1 ∧
    (∀ p ∈ generate_unit_grid_coordinates 0 0
        [((5 : ℚ), (-7 : ℚ))] [((100 : ℚ), (-100 : ℚ))],
      0 ≤ p.1 ∧ p.1 ≤ 1 ∧ 0 ≤ p.2 ∧ p.2 ≤ 1) :=
  ⟨by decide, by decide,
    generate_unit_grid_coordinates_c5 0 0 (by decide) (by decide) _ _⟩

lemma length_flatMap_range {β : Type} (n k : ℕ) (f : ℕ → List β)
    (hf : ∀ a, (f a).length = k) : ((List.range n).flatMap f).length = n * k := by
  induction n with
  | zero => simp
  | succ m ih =>
    rw [List.range_succ, List.flatMap_append, List.length_append, ih,
      List.flatMap_cons, List.flatMap_nil, List.append_nil, hf m]
    ring

lemma local_search_candidates_length (cosv sinv : ℚ → ℚ)
    (normals : ℕ → ℕ → ℕ → ℚ) (lon lat : ℚ) :
    (local_search_candidates cosv sinv normals lon lat).length =
      (MAX_LAND_PLACEMENT_ATTEMPTS / 2) * LOCAL_SEARCH_STRATEGIES := by
  unfold local_search_candidates
  exact length_flatMap_range _ LOCAL_SEARCH_STRATEGIES _ (fun a => by simp)

lemma local_search_candidates_bounds (cosv sinv : ℚ → ℚ)
    (normals : ℕ → ℕ → ℕ → ℚ) (lon lat : ℚ) (c : ℚ × ℚ)
    (hc : c ∈ local_search_candidates cosv sinv normals lon lat) :
    WGS84_LONGITUDE_MIN ≤ c.1 ∧ c.1 ≤ WGS84_LONGITUDE_MAX ∧
    WGS84_LATITUDE_MIN ≤ c.2 ∧ c.2 ≤ WGS84_LATITUDE_MAX := by
  simp only [local_search_candidates, List.mem_flatMap, List.mem_map,
    List.mem_range] at hc
  obtain ⟨attempt, _, strategy, _, rfl⟩ := hc
  have hlon := npClip_mem (WGS84_LONGITUDE_MIN + 1) (WGS84_LONGITUDE_MAX - 1)
    (generate_search_candidate cosv sinv (normals attempt strategy 0)
      (normals attempt strategy 1) lon lat
      (LAND_SEARCH_RADIUS_BASE + (attempt : ℚ) * LAND_SEARCH_RADIUS_INCREMENT)
      strategy attempt).1
    (by norm_num [WGS84_LONGITUDE_MIN, WGS84_LONGITUDE_MAX])
  have hlat := npClip_mem (WGS84_LATITUDE_MIN + 1) (WGS84_LATITUDE_MAX - 1)
    (generate_search_candidate cosv sinv (normals attempt strategy 0)
      (normals attempt strategy 1) lon lat
      (LAND_SEARCH_RADIUS_BASE + (attempt : ℚ) * LAND_SEARCH_RADIUS_INCREMENT)
      strategy attempt).2
    (by norm_num [WGS84_LATITUDE_MIN, WGS84_LATITUDE_MAX])
  have e1 : WGS84_LONGITUDE_MIN ≤ WGS84_LONGITUDE_MIN + 1 := by
    norm_num
  have e2 : WGS84_LONGITUDE_MAX - 1 ≤ WGS84_LONGITUDE_MAX := by
    norm_num
  have e3 : WGS84_LATITUDE_MIN ≤ WGS84_LATITUDE_MIN + 1 := by
    norm_num
  have e4 : WGS84_LATITUDE_MAX - 1 ≤ WGS84_LATITUDE_MAX := by
    norm_num
  exact ⟨le_trans e1 hlon.1, le_trans hlon.2 e2, le_trans e3 hlat.1,
    le_trans hlat.2 e4⟩

lemma attempt_regional_land_placement_bounds (u v x y : ℚ)
    (hu0 : 0 ≤ u) (hu1 : u < 1) (hv0 : 0 ≤ v) (hv1 : v < 1) :
    WGS84_LONGITUDE_MIN ≤ (attempt_regional_land_placement u v x y).1 ∧
    (attempt_regional_land_placement u v x y).1 ≤ WGS84_LONGITUDE_MAX ∧
    WGS84_LATITUDE_MIN ≤ (attempt_regional_land_placement u v x y).2 ∧
    (attempt_regional_land_placement u v x y).2 ≤ WGS84_LATITUDE_MAX := by
  unfold attempt_regional_land_placement WGS84_LONGITUDE_MIN
    WGS84_LONGITUDE_MAX WGS84_LATITUDE_MIN WGS84_LATITUDE_MAX
  split_ifs <;> dsimp only <;>
    exact ⟨by nlinarith, by nlinarith, by nlinarith, by nlinarith⟩

lemma attempt_land_placement_cases (available : Bool) (onLand : ℚ → ℚ → Bool)
    (cosv sinv : ℚ → ℚ) (normals : ℕ → ℕ → ℕ → ℚ) (u v lon lat x y : ℚ) :
    (available = false ∧
      attempt_land_placement available onLand cosv sinv normals u v lon lat x y
        = (lon, lat)) ∨
    (available = true ∧ onLand lon lat = true ∧
      attempt_land_placement available onLand cosv sinv normals u v lon lat x y
        = (lon, lat)) ∨
    (available = true ∧ onLand lon lat = false ∧
      ∃ c ∈ local_search_candidates cosv sinv normals lon lat,
        onLand c.1 c.2 = true ∧
        attempt_land_placement available onLand cosv sinv normals u v lon lat x y
          = c) ∨
    (available = true ∧ onLand lon lat = false ∧
      (∀ c ∈ local_search_candidates cosv sinv normals lon lat,
        onLand c.1 c.2 = false) ∧
      attempt_land_placement available onLand cosv sinv normals u v lon lat x y
        = attempt_regional_land_placement u v x y) := by
  cases available with
  | false =>
    left
    exact ⟨rfl, by simp [attempt_land_placement]⟩
  | true =>
    by_cases hland : onLand lon lat = true
    · right; left
      exact ⟨rfl, hland, by simp [attempt_land_placement, hland]⟩
    · have hland' : onLand lon lat = false := by
        simpa using hland
      rcases hfind : (local_search_candidates cosv sinv normals lon lat).find?
          (fun c => onLand c.1 c.2) with _ | c
      · right; right; right
        refine ⟨rfl, hland', fun c hc => ?_, ?_⟩
        · have := List.find?_eq_none.mp hfind c hc
          simpa using this
        · simp [attempt_land_placement, attempt_local_land_search, hland', hfind]
      · right; right; left
        refine ⟨rfl, hland', c, List.mem_of_find?_eq_some hfind,
          by simpa using List.find?_some hfind, ?_⟩
        simp [attempt_land_placement, attempt_local_land_search, hland', hfind]

lemma attempt_land_placement_all_fail (onLand : ℚ → ℚ → Bool)
    (cosv sinv : ℚ → ℚ) (normals : ℕ → ℕ → ℕ → ℚ) (u v lon lat x y : ℚ)
    (h1 : onLand lon lat = false)
    (h2 : ∀ c ∈ local_search_candidates cosv sinv normals lon lat,
      onLand c.1 c.2 = false) :
    attempt_land_placement true onLand cosv sinv normals u v lon lat x y =
      attempt_regional_land_placement u v x y := by
  rcases attempt_land_placement_cases true onLand cosv sinv normals u v lon lat x y with
    ⟨hav, _⟩ | ⟨_, hl, _⟩ | ⟨_, _, c, hc, hcl, _⟩ | ⟨_, _, _, hres⟩
  · cases hav
  · rw [hl] at h1; cases h1
  · rw [h2 c hc] at hcl; cases hcl
  · exact hres

/-- C6: for every input point inside the supported geographic box and every
oracle — including an oracle that rejects (or, in the source, raises and is
treated as rejecting) every query — the land-constrained placement search
returns a coordinate inside the declared geographic bounding box, and the
number of land-mask queries is bounded: the local tier examines exactly
`(K/2) * 4` candidates (each queried at most once, plus the single initial
on-land query), and the final quadrant fallback is a total function that
always yields a result. -/
theorem attempt_land_placement_c6 (available : Bool) (onLand : ℚ → ℚ → Bool)
    (cosv sinv : ℚ → ℚ) (normals : ℕ → ℕ → ℕ → ℚ) (u v lon lat x y : ℚ)
    (hu0 : 0 ≤ u) (hu1 : u < 1) (hv0 : 0 ≤ v) (hv1 : v < 1)
    (hlon0 : WGS84_LONGITUDE_MIN ≤ lon) (hlon1 : lon ≤ WGS84_LONGITUDE_MAX)
    (hlat0 : WGS84_LATITUDE_MIN ≤ lat) (hlat1 : lat ≤ WGS84_LATITUDE_MAX) :
    (local_search_candidates cosv sinv normals lon lat).length =
      (MAX_LAND_PLACEMENT_ATTEMPTS / 2) * LOCAL_SEARCH_STRATEGIES ∧
    WGS84_LONGITUDE_MIN ≤
      (attempt_land_placement available onLand cosv sinv normals u v lon lat x y).1 ∧
    (attempt_land_placement available onLand cosv sinv normals u v lon lat x y).1 ≤
      WGS84_LONGITUDE_MAX ∧
    WGS84_LATITUDE_MIN ≤
      (attempt_land_placement available onLand cosv sinv normals u v lon lat x y).2 ∧
    (attempt_land_placement available onLand cosv sinv normals u v lon lat x y).2 ≤
      WGS84_LATITUDE_MAX := by
  refine ⟨local_search_candidates_length cosv sinv normals lon lat, ?_⟩
  rcases attempt_land_placement_cases available onLand cosv sinv normals u v lon lat x y with
    ⟨_, hres⟩ | ⟨_, _, hres⟩ | ⟨_, _, c, hc, _, hres⟩ | ⟨_, _, _, hres⟩
  · rw [hres]; exact ⟨hlon0, hlon1, hlat0, hlat1⟩
  · rw [hres]; exact ⟨hlon0, hlon1, hlat0, hlat1⟩
  · rw [hres]; exact local_search_candidates_bounds cosv sinv normals lon lat c hc
  · rw [hres]; exact attempt_regional_land_placement_bounds u v x y hu0 hu1 hv0 hv1

theorem attempt_land_placement_c6_witness :
    ((0 : ℚ) ≤ 0 ∧ (0 : ℚ) < 1 ∧
      WGS84_LONGITUDE_MIN ≤ (0 : ℚ) ∧ (0 : ℚ) ≤ WGS84_LONGITUDE_MAX ∧
      WGS84_LATITUDE_MIN ≤ (0 : ℚ) ∧ (0 : ℚ) ≤ WGS84_LATITUDE_MAX) ∧
    ((local_search_candidates (fun _ => 0) (fun _ => 0) (fun _ _ _ => 0) 0 0).length =
      (MAX_LAND_PLACEMENT_ATTEMPTS / 2) * LOCAL_SEARCH_STRATEGIES ∧
    WGS84_LONGITUDE_MIN ≤
      (attempt_land_placement true (fun _ _ => false) (fun _ => 0) (fun _ => 0)
        (fun _ _ _ => 0) 0 0 0 0 0 0).1 ∧
    (attempt_land_placement true (fun _ _ => false) (fun _ => 0) (fun _ => 0)
        (fun _ _ _ => 0) 0 0 0 0 0 0).1 ≤ WGS84_LONGITUDE_MAX ∧
    WGS84_LATITUDE_MIN ≤
      (attempt_land_placement true (fun _ _ => false) (fun _ => 0) (fun _ => 0)
        (fun _ _ _ => 0) 0 0 0 0 0 0).2 ∧
    (attempt_land_placement true (fun _ _ => false) (fun _ => 0) (fun _ => 0)
        (fun _ _ _ => 0) 0 0 0 0 0 0).2 ≤ WGS84_LATITUDE_MAX) :=
  ⟨⟨by decide, by decide, by decide, by decide, by decide, by decide⟩,
    attempt_land_placement_c6 true (fun _ _ => false) (fun _ => 0) (fun _ => 0)
      (fun _ _ _ => 0) 0 0 0 0 0 0 (by decide) (by decide) (by decide) (by decide)
      (by decide) (by decide) (by decide) (by decide)⟩

lemma c1_oracle_base :
    is_point_on_land_eastern_hemisphere (1/2) (-14) (-59) = false := by
  norm_num [is_point_on_land_eastern_hemisphere]

lemma c1_oracle_strategy1 :
    is_point_on_land_eastern_hemisphere (1/2) (-19/5) (-413/10) = false := by
  norm_num [is_point_on_land_eastern_hemisphere]

lemma c1_oracle_output :
    is_point_on_land_eastern_hemisphere (1/2) 25 0 = false := by
  norm_num [is_point_on_land_eastern_hemisphere]

lemma c1_candidates (c : ℚ × ℚ)
    (hc : c ∈ local_search_candidates (fun _ => 0) (fun _ => 0)
      (fun _ _ _ => 0) (-14) (-59)) :
    c = (-14, -59) ∨ c = (-19/5, -413/10) := by
  simp only [local_search_candidates, List.mem_flatMap, List.mem_map,
    List.mem_range] at hc
  obtain ⟨attempt, ha, strategy, hs, rfl⟩ := hc
  have hs4 : strategy < 4 := hs
  interval_cases strategy
  · left
    norm_num [generate_search_candidate, npClip, min_def, max_def,
      WGS84_LONGITUDE_MIN, WGS84_LONGITUDE_MAX, WGS84_LATITUDE_MIN, WGS84_LATITUDE_MAX]
  · right
    norm_num [generate_search_candidate, find_closest_land_region,
      GEOGRAPHIC_LAND_REGIONS, npClip, min_def, max_def,
      WGS84_LONGITUDE_MIN, WGS84_LONGITUDE_MAX, WGS84_LATITUDE_MIN, WGS84_LATITUDE_MAX]
  · left
    norm_num [generate_search_candidate, npClip, min_def, max_def,
      WGS84_LONGITUDE_MIN, WGS84_LONGITUDE_MAX, WGS84_LATITUDE_MIN, WGS84_LATITUDE_MAX]
  · left
    norm_num [generate_search_candidate, npClip, min_def, max_def,
      WGS84_LONGITUDE_MIN, WGS84_LONGITUDE_MAX, WGS84_LATITUDE_MIN, WGS84_LATITUDE_MAX]

/-- C1 counterexample: a concrete geographic run in which the land oracle is
the repository's own coordinate-rule land test, the initial point (-14, -59)
is off land, every local-search candidate is off land (all normal draws zero,
grid-strategy trigonometry zero), and the search therefore returns the
quadrant-fallback point (25, 0) — which the very same oracle rejects.  So not
every coordinate returned by the search passes the land test. -/
theorem attempt_land_placement_c1_counterexample :
    attempt_land_placement true (is_point_on_land_eastern_hemisphere (1/2))
      (fun _ => 0) (fun _ => 0) (fun _ _ _ => 0) (1/2) (2/3)
      (-14) (-59) (3/10) (3/10) = (25, 0) ∧
    is_point_on_land_eastern_hemisphere (1/2) 25 0 = false := by
  refine ⟨?_, c1_oracle_output⟩
  have h2 : ∀ c ∈ local_search_candidates (fun _ => 0) (fun _ => 0)
      (fun _ _ _ => 0) (-14) (-59),
      is_point_on_land_eastern_hemisphere (1/2) c.1 c.2 = false := by
    intro c hc
    rcases c1_candidates c hc with rfl | rfl
    · exact c1_oracle_base
    · exact c1_oracle_strategy1
  rw [attempt_land_placement_all_fail _ _ _ _ _ _ _ _ _ _ c1_oracle_base h2]
  norm_num [attempt_regional_land_placement]

/-- C1 (amended): when the oracle is available, every coordinate returned by
the land-constrained placement search either satisfies the land test (the
already-on-land early return and every local-search success do) or is the
output of the quadrant fallback, which draws from a fixed per-quadrant box
without consulting the oracle and therefore need not pass the land test. -/
theorem attempt_land_placement_c1_amended (available : Bool)
    (onLand : ℚ → ℚ → Bool) (cosv sinv : ℚ → ℚ) (normals : ℕ → ℕ → ℕ → ℚ)
    (u v lon lat x y : ℚ) (hav : available = true) :
    onLand (attempt_land_placement available onLand cosv sinv normals u v lon lat x y).1
      (attempt_land_placement available onLand cosv sinv normals u v lon lat x y).2 = true ∨
    attempt_land_placement available onLand cosv sinv normals u v lon lat x y =
      attempt_regional_land_placement u v x y := by
  rcases attempt_land_placement_cases available onLand cosv sinv normals u v lon lat x y with
    ⟨hf, _⟩ | ⟨_, hl, hres⟩ | ⟨_, _, c, _, hcl, hres⟩ | ⟨_, _, _, hres⟩
  · rw [hav] at hf; cases hf
  · left; rw [hres]; exact hl
  · left; rw [hres]; exact hcl
  · right; exact hres

theorem attempt_land_placement_c1_amended_witness :
    true = true ∧
    (((fun _ _ => true) : ℚ → ℚ → Bool)
        (attempt_land_placement true (fun _ _ => true) (fun _ => 0) (fun _ => 0)
          (fun _ _ _ => 0) 0 0 0 0 0 0).1
        (attempt_land_placement true (fun _ _ => true) (fun _ => 0) (fun _ => 0)
          (fun _ _ _ => 0) 0 0 0 0 0 0).2 = true ∨
      attempt_land_placement true (fun _ _ => true) (fun _ => 0) (fun _ => 0)
        (fun _ _ _ => 0) 0 0 0 0 0 0 = attempt_regional_land_placement 0 0 0 0) :=
  ⟨rfl, attempt_land_placement_c1_amended true (fun _ _ => true) (fun _ => 0)
    (fun _ => 0) (fun _ _ _ => 0) 0 0 0 0 0 0 rfl⟩

/-- C2 counterexample: for the concrete original normalized position
(3/10, 3/10) every output the code's second stage can produce has longitude
below 35 (it draws uniformly from the fixed Central-Africa box), whereas the
weighted regional resampling tier the claim describes gives the East-Asia
anchor region positive weight and can return its anchor, longitude 115, with
zero-noise Gaussian draws.  The code's stage after a failed local search is
therefore the deterministic quadrant fallback, not weighted regional
resampling: the claimed middle tier does not exist. -/
theorem attempt_land_placement_c2_counterexample :
    (∀ u v : ℚ, 0 ≤ u → u < 1 → 0 ≤ v → v < 1 →
      (attempt_regional_land_placement u v (3/10) (3/10)).1 < 35) ∧
    0 < region_weight_spec (3/10) (3/10) (GEOGRAPHIC_LAND_REGIONS.getD 4 default) ∧
    (regional_resample_spec 4 0 0).1 = 115 ∧ ¬ ((115 : ℚ) < 35) := by
  refine ⟨fun u v hu0 hu1 hv0 hv1 => ?_, ?_, ?_, by norm_num⟩
  · norm_num [attempt_regional_land_placement]
    linarith
  · norm_num [region_weight_spec, region_normalized_center,
      GEOGRAPHIC_LAND_REGIONS, WGS84_LONGITUDE_MIN, WGS84_LONGITUDE_MAX,
      WGS84_LONGITUDE_RANGE, WGS84_LATITUDE_MIN, WGS84_LATITUDE_MAX,
      WGS84_LATITUDE_RANGE, List.getD]
  · norm_num [regional_resample_spec, GEOGRAPHIC_LAND_REGIONS, List.getD]

/-- C2 (amended): for every off-land input point the search applies exactly
two tiers in order, stopping at the first success: (1) local perturbation
with up to K/2 attempts of the four candidate strategies (the candidate list
has exactly (K/2) * 4 entries, scanned in order), and (2) a deterministic
quadrant fallback keyed on the original normalized position; there is no
weighted regional resampling tier between them. -/
theorem attempt_land_placement_c2_amended (available : Bool)
    (onLand : ℚ → ℚ → Bool) (cosv sinv : ℚ → ℚ) (normals : ℕ → ℕ → ℕ → ℚ)
    (u v lon lat x y : ℚ) (hav : available = true)
    (hoff : onLand lon lat = false) :
    (local_search_candidates cosv sinv normals lon lat).length =
      (MAX_LAND_PLACEMENT_ATTEMPTS / 2) * LOCAL_SEARCH_STRATEGIES ∧
    ((∃ c ∈ local_search_candidates cosv sinv normals lon lat,
        onLand c.1 c.2 = true ∧
        attempt_land_placement available onLand cosv sinv normals u v lon lat x y = c) ∨
     ((∀ c ∈ local_search_candidates cosv sinv normals lon lat,
        onLand c.1 c.2 = false) ∧
      attempt_land_placement available onLand cosv sinv normals u v lon lat x y =
        attempt_regional_land_placement u v x y)) := by
  refine ⟨local_search_candidates_length cosv sinv normals lon lat, ?_⟩
  rcases attempt_land_placement_cases available onLand cosv sinv normals u v lon lat x y with
    ⟨hf, _⟩ | ⟨_, hl, _⟩ | ⟨_, _, c, hc, hcl, hres⟩ | ⟨_, _, hall, hres⟩
  · rw [hav] at hf; cases hf
  · rw [hl] at hoff; cases hoff
  · left; exact ⟨c, hc, hcl, hres⟩
  · right; exact ⟨hall, hres⟩

theorem attempt_land_placement_c2_amended_witness :
    true = true ∧ (((fun _ _ => false) : ℚ → ℚ → Bool) 0 0 = false) ∧
    ((local_search_candidates (fun _ => 0) (fun _ => 0) (fun _ _ _ => 0) 0 0).length =
      (MAX_LAND_PLACEMENT_ATTEMPTS / 2) * LOCAL_SEARCH_STRATEGIES ∧
    ((∃ c ∈ local_search_candidates (fun _ => 0) (fun _ => 0) (fun _ _ _ => 0) 0 0,
        ((fun _ _ => false) : ℚ → ℚ → Bool) c.1 c.2 = true ∧
        attempt_land_placement true (fun _ _ => false) (fun _ => 0) (fun _ => 0)
          (fun _ _ _ => 0) 0 0 0 0 0 0 = c) ∨
     ((∀ c ∈ local_search_candidates (fun _ => 0) (fun _ => 0) (fun _ _ _ => 0) 0 0,
        ((fun _ _ => false) : ℚ → ℚ → Bool) c.1 c.2 = false) ∧
      attempt_land_placement true (fun _ _ => false) (fun _ => 0) (fun _ => 0)
        (fun _ _ _ => 0) 0 0 0 0 0 0 = attempt_regional_land_placement 0 0 0 0))) :=
  ⟨rfl, rfl, attempt_land_placement_c2_amended true (fun _ _ => false)
    (fun _ => 0) (fun _ => 0) (fun _ _ _ => 0) 0 0 0 0 0 0 rfl rfl⟩

lemma getD_of_le {α : Type} (l : List α) (k : ℕ) (d : α) (h : l.length ≤ k) :
    l.getD k d = d := by
  rw [List.getD_eq_getElem?_getD, List.getElem?_eq_none h]
  rfl

lemma getD_zip {α β : Type} (l1 : List α) (l2 : List β) (k : ℕ) (d1 : α) (d2 : β)
    (h1 : k < l1.length) (h2 : k < l2.length) :
    (l1.zip l2).getD k (d1, d2) = (l1.getD k d1, l2.getD k d2) := by
  induction l1 generalizing l2 k with
  | nil => cases h1
  | cons a l ih =>
    cases l2 with
    | nil => cases h2
    | cons b m =>
      cases k with
      | zero => rfl
      | succ k =>
        simp only [List.zip_cons_cons, List.getD_cons_succ]
        exact ih m k (Nat.lt_of_succ_lt_succ h1) (Nat.lt_of_succ_lt_succ h2)

lemma getD_map_lt {α β : Type} (f : α → β) (l : List α) (k : ℕ) (d : β) (d0 : α)
    (h : k < l.length) : (l.map f).getD k d = f (l.getD k d0) := by
  induction l generalizing k with
  | nil => cases h
  | cons a l ih =>
    cases k with
    | zero => rfl
    | succ k =>
      simp only [List.map_cons, List.getD_cons_succ]
      exact ih k (Nat.lt_of_succ_lt_succ h)

/-- C7: two runs of the synthesis entry point with the same seed, the same
tree sequence, the same external MDS optimiser and the same UnitGrid CRS
produce identical outputs: when a seed is supplied, the global random stream
is reset to the seeded stream, so the ambient (unseeded) stream — the only
source of run-to-run nondeterminism in the model — is discarded, and every
downstream draw and the MDS call depend only on the seed and the inputs. -/
theorem generate_spatial_locations_determinism_c7
    (mdsFit : List (List ℚ) → Option ℕ → Option (List (ℚ × ℚ)))
    (seeded : ℕ → ℕ → ℚ) (amb1 amb2 : ℕ → ℚ)
    (available : Bool) (onLand : ℚ → ℚ → Bool) (cosv sinv : ℚ → ℚ)
    (ts : TreeSequence) (s : ℕ) :
    generate_spatial_locations_for_samples mdsFit seeded amb1 available onLand
      cosv sinv ts (some s) "unit_grid" =
    generate_spatial_locations_for_samples mdsFit seeded amb2 available onLand
      cosv sinv ts (some s) "unit_grid" := rfl

/-- C9: for every tree sequence with fewer sample nodes than the
minimum-sample threshold, the synthesis entry point returns its input
unchanged — a no-op passthrough, not an error. -/
theorem generate_spatial_locations_min_samples_c9
    (mdsFit : List (List ℚ) → Option ℕ → Option (List (ℚ × ℚ)))
    (seeded : ℕ → ℕ → ℚ) (ambient : ℕ → ℚ)
    (available : Bool) (onLand : ℚ → ℚ → Bool) (cosv sinv : ℚ → ℚ)
    (ts : TreeSequence) (random_seed : Option ℕ) (crs : String)
    (h : (sampleNodes ts).length < MINIMUM_SAMPLES_REQUIRED) :
    generate_spatial_locations_for_samples mdsFit seeded ambient available
      onLand cosv sinv ts random_seed crs = ts := by
  simp [generate_spatial_locations_for_samples, h]

/-- A one-sample tree sequence, below the minimum-sample threshold. -/
def c9TreeSeq : TreeSequence :=
  { nodes := [{ time := 0, flags := 1, population := -1, individual := -1,
                metadata := [] }],
    edges := [], individuals := [], trees := [] }

theorem generate_spatial_locations_min_samples_c9_witness :
    (sampleNodes c9TreeSeq).length < MINIMUM_SAMPLES_REQUIRED ∧
    generate_spatial_locations_for_samples (fun _ _ => none) (fun _ _ => 0)
      (fun _ => 0) true (fun _ _ => true) (fun _ => 0) (fun _ => 0)
      c9TreeSeq (some 0) "unit_grid" = c9TreeSeq :=
  ⟨by decide, generate_spatial_locations_min_samples_c9 (fun _ _ => none)
    (fun _ _ => 0) (fun _ => 0) true (fun _ _ => true) (fun _ => 0) (fun _ => 0)
    c9TreeSeq (some 0) "unit_grid" (by decide)⟩

/-- C10: rebuilding the tables preserves every node's time, flags,
population and metadata and leaves the edge table (and the trees) unchanged;
only the individuals table is rebuilt — one new individual per sample node,
each with the 3-component location `[x, y, 0]` — and the nodes' individual
references are reassigned through the sample-node dictionary (default -1). -/
theorem create_tree_sequence_with_spatial_data_c10 (ts : TreeSequence)
    (sample_nodes : List ℕ) (final_coords : List (ℚ × ℚ))
    (hlen : final_coords.length = sample_nodes.length) :
    (create_tree_sequence_with_spatial_data ts sample_nodes final_coords).edges
      = ts.edges ∧
    (create_tree_sequence_with_spatial_data ts sample_nodes final_coords).trees
      = ts.trees ∧
    (create_tree_sequence_with_spatial_data ts sample_nodes final_coords).nodes.length
      = ts.nodes.length ∧
    (∀ i : ℕ,
      (((create_tree_sequence_with_spatial_data ts sample_nodes final_coords).nodes.getD
          i default).time = (ts.nodes.getD i default).time ∧
       ((create_tree_sequence_with_spatial_data ts sample_nodes final_coords).nodes.getD
          i default).flags = (ts.nodes.getD i default).flags ∧
       ((create_tree_sequence_with_spatial_data ts sample_nodes final_coords).nodes.getD
          i default).population = (ts.nodes.getD i default).population ∧
       ((create_tree_sequence_with_spatial_data ts sample_nodes final_coords).nodes.getD
          i default).metadata = (ts.nodes.getD i default).metadata)) ∧
    (∀ i : ℕ, i < ts.nodes.length →
      ((create_tree_sequence_with_spatial_data ts sample_nodes final_coords).nodes.getD
        i default).individual = nodeToIndividual sample_nodes i) ∧
    (create_tree_sequence_with_spatial_data ts sample_nodes final_coords).individuals.length
      = sample_nodes.length ∧
    (∀ k : ℕ, k < sample_nodes.length →
      ((create_tree_sequence_with_spatial_data ts sample_nodes final_coords).individuals.getD
        k default).location =
        [(final_coords.getD k (0, 0)).1, (final_coords.getD k (0, 0)).2, 0]) := by
  have hnodes_eq : (create_tree_sequence_with_spatial_data ts sample_nodes final_coords).nodes
      = (List.range ts.nodes.length).map (fun i =>
          { ts.nodes.getD i default with
            individual := nodeToIndividual sample_nodes i }) := rfl
  have hind_eq : (create_tree_sequence_with_spatial_data ts sample_nodes final_coords).individuals
      = (sample_nodes.zip final_coords).map (fun pc =>
          ({ flags := 0, location := [pc.2.1, pc.2.2, 0], parents := [],
             metadata := [] } : IndividualRow)) := rfl
  refine ⟨rfl, rfl, ?_, ?_, ?_, ?_, ?_⟩
  · rw [hnodes_eq]; simp
  · intro i
    rw [hnodes_eq]
    by_cases hi : i < ts.nodes.length
    · rw [getD_map_range _ _ i hi]
      exact ⟨rfl, rfl, rfl, rfl⟩
    · have hle : ts.nodes.length ≤ i := le_of_not_lt hi
      rw [getD_of_le _ i default (by simpa using hle),
        getD_of_le ts.nodes i default hle]
      exact ⟨rfl, rfl, rfl, rfl⟩
  · intro i hi
    rw [hnodes_eq, getD_map_range _ _ i hi]
  · rw [hind_eq]; simp [List.length_zip, hlen]
  · intro k hk
    have hk2 : k < final_coords.length := by rw [hlen]; exact hk
    have hzip : k < (sample_nodes.zip final_coords).length := by
      simp [List.length_zip, hlen]
      omega
    rw [hind_eq, getD_map_lt _ _ k default (0, (0, 0)) hzip,
      getD_zip sample_nodes final_coords k 0 (0, 0) hk hk2]

/-- A two-node tree sequence with one sample node and one edge, used to
instantiate the frame-effect theorem. -/
def c10TreeSeq : TreeSequence :=
  { nodes := [{ time := 0, flags := 1, population := -1, individual := -1,
                metadata := [] },
              { time := 1, flags := 0, population := -1, individual := -1,
                metadata := [] }],
    edges := [{ left := 0, right := 1, parent := 1, child := 0 }],
    individuals := [], trees := [] }

theorem create_tree_sequence_with_spatial_data_c10_witness :
    ([((1 : ℚ), (2 : ℚ))] : List (ℚ × ℚ)).length = ([0] : List ℕ).length ∧
    (create_tree_sequence_with_spatial_data c10TreeSeq [0] [((1 : ℚ), (2 : ℚ))]).edges
      = c10TreeSeq.edges :=
  ⟨by decide, (create_tree_sequence_with_spatial_data_c10 c10TreeSeq [0]
    [((1 : ℚ), (2 : ℚ))] (by decide)).1⟩
